import Mathlib

/-
Verification of the wwtbm trivia-game dashboard (src/wwtbm).

The development shallowly embeds the procedural core of the repository:
  - the answer-log ingestion and first-occurrence deduplication of
    src/wwtbm/fetch.py (read as lists of rows with an explicit column set,
    since the missing-column check operates on the column set);
  - the countdown-timer callback and question-navigation callback of
    src/wwtbm/app.py, together with the tick source declared in the layout
    (dcc.Interval with max_intervals = 30);
  - the leaderboard aggregation of the update_leaderboard callback of
    src/wwtbm/app.py (pandas groupby-sum over the deduplicated log);
  - the per-question visualisation dispatch of
    src/wwtbm/question_visualisation.py.

Rows are modelled with exact integer/string/boolean cells; a pandas NaN
produced by mapping a question number with no point value is modelled with
Option, and the skipna behaviour of pandas Series.sum is the getD 0 below.
-/

set_option autoImplicit false

namespace WWTBM

/-- One row of the answer log (spec: AnswerRecord), with the column names of
the source sheet: ID, Name, Question, Answer, Correct.  Answers are the
numeric labels 1-4. -/
structure Record where
  ID : Int
  Name : String
  Question : Int
  Answer : Int
  Correct : Bool
deriving DecidableEq, Repr

/-- A data frame: the set of columns present, plus the rows.  The rows carry
all five cells; a frame whose `columns` lacks a required name models a sheet
missing that column, which fetch.py detects before touching any row. -/
structure DataFrame where
  columns : List String
  rows : List Record
deriving DecidableEq, Repr

/-- Errors raised by fetch.py.  The source raises ValueError listing the
missing columns; the spec names this failure MalformedRecordError. -/
inductive FetchError where
  | malformedRecord (missing : List String)
deriving DecidableEq, Repr

/-- The groupby key of filter_first_occurrence: (ID, Name, Question). -/
def recKey (r : Record) : Int × String × Int :=
  (r.ID, r.Name, r.Question)

/-- Keep the first row for each (ID, Name, Question) key, tracking the keys
already seen.  This is the row-level content of
`df.groupby(["ID", "Name", "Question"]).first()` on a frame without nulls. -/
def firstOccurrencesAux (seen : List (Int × String × Int)) : List Record → List Record
  | [] => []
  | r :: rs =>
    if recKey r ∈ seen then firstOccurrencesAux seen rs
    else r :: firstOccurrencesAux (recKey r :: seen) rs

/-- First occurrence of each key, in order of first appearance. -/
def firstOccurrences (rows : List Record) : List Record :=
  firstOccurrencesAux [] rows

/-- Lexicographic comparison on the groupby key, matching the ascending key
order in which pandas groupby (sort=True, the default) emits the groups. -/
def keyLe (a b : Record) : Bool :=
  if a.ID = b.ID then
    (if a.Name = b.Name then decide (a.Question ≤ b.Question)
     else decide (a.Name < b.Name))
  else decide (a.ID < b.ID)

/-- Insertion into a keyLe-sorted list. -/
def insertByKey (r : Record) : List Record → List Record
  | [] => [r]
  | x :: xs => if keyLe r x then r :: x :: xs else x :: insertByKey r xs

/-- Sort rows by the groupby key (the row order of
`groupby([...]).first().reset_index()`, whose index is sorted by key). -/
def sortByKey : List Record → List Record
  | [] => []
  | r :: rs => insertByKey r (sortByKey rs)

/-- fetch.py: required_columns = {"ID", "Name", "Question", "Answer", "Correct"}. -/
def required_columns : List String :=
  ["ID", "Name", "Question", "Answer", "Correct"]

/-- fetch.py filter_first_occurrence: raise when a required column is
missing, otherwise keep the first row of each (ID, Name, Question) group,
rows emitted in ascending key order. -/
def filter_first_occurrence (df : DataFrame) : Except FetchError DataFrame :=
  if required_columns.filter (fun c => ! df.columns.contains c) = [] then
    .ok { columns := df.columns, rows := sortByKey (firstOccurrences df.rows) }
  else
    .error (.malformedRecord
      (required_columns.filter (fun c => ! df.columns.contains c)))

/-- The first row of `rows` that carries the groupby key `k`. -/
def firstWithKey (rows : List Record) (k : Int × String × Int) : Option Record :=
  rows.find? (fun x => recKey x == k)

/-! ### Timer callback (app.py update_timer) and its tick source -/

/-- Which input fired the update_timer callback: a timer-interval tick or a
change of the current-question-index store. -/
inductive TimerTrigger where
  | interval
  | questionChange
deriving DecidableEq, Repr

/-- The quintuple returned by update_timer: timer display text, audio loop
flag, audio source, time-up store value, and the written-back n_intervals.
The third branch of the source leaves loop and src as no_update (none here).
Display punctuation is simplified. -/
structure TimerOutput where
  display : String
  audio_loop : Option Bool
  audio_src : Option String
  time_up : Bool
  n_intervals : Nat
deriving DecidableEq, Repr

/-- Background music asset used while the timer runs. -/
def bg_audio_src : String := "226000-66fa2379-b277-4480-a2bc-feeb689bd09b.mp3"

/-- Asset played when time runs out. -/
def timeup_audio_src : String := "226000-9027b0d6-7a4f-4ee7-946f-6d011370681f.mp3"

/-- app.py update_timer: on a question change reset the display to 30, the
time-up store to False and n_intervals to 0; on a tick show
30 - n_intervals % 30 and declare time up exactly when that is 30 with
n_intervals nonzero. -/
def update_timer (trigger : TimerTrigger) (n_intervals : Nat) : TimerOutput :=
  match trigger with
  | .questionChange =>
    { display := "30", audio_loop := some true, audio_src := some bg_audio_src,
      time_up := false, n_intervals := 0 }
  | .interval =>
    let time_left := 30 - n_intervals % 30
    if time_left = 30 ∧ n_intervals ≠ 0 then
      { display := "Times up!", audio_loop := some false,
        audio_src := some timeup_audio_src, time_up := true,
        n_intervals := n_intervals }
    else
      { display := toString time_left, audio_loop := none, audio_src := none,
        time_up := false, n_intervals := n_intervals }

/-- The layout declares dcc.Interval(interval=1000, n_intervals=0,
max_intervals=30): the tick source stops once n_intervals reaches 30. -/
def MAX_INTERVALS : Nat := 30

/-- The store-backed timer state: the interval component counter and the
time-up store. -/
structure TimerState where
  n_intervals : Nat
  time_up : Bool
deriving DecidableEq, Repr

/-- Timer state right after a question change (or at page load). -/
def timer_reset_state : TimerState :=
  { n_intervals := 0, time_up := false }

/-- One second of wall time without a question change: while n_intervals is
below max_intervals the interval increments it and update_timer runs on the
new count, writing the time-up store and n_intervals back; once the cap is
reached no tick fires.  The returned Bool is the value written to the
time-up store by this tick (true = the one-shot time-up event). -/
def interval_tick (s : TimerState) : TimerState × Bool :=
  if s.n_intervals < MAX_INTERVALS then
    let out := update_timer .interval (s.n_intervals + 1)
    ({ n_intervals := out.n_intervals, time_up := out.time_up }, out.time_up)
  else (s, false)

/-- A question change runs update_timer on the questionChange trigger and
writes its outputs back to the stores. -/
def question_change_step (s : TimerState) : TimerState :=
  let out := update_timer .questionChange s.n_intervals
  { n_intervals := out.n_intervals, time_up := out.time_up }

/-- The timer state after k seconds without a question change. -/
def runTicks (s : TimerState) : Nat → TimerState
  | 0 => s
  | k + 1 => (interval_tick (runTicks s k)).1

/-- How many of the first k ticks emitted the time-up event. -/
def eventCount (s : TimerState) : Nat → Nat
  | 0 => 0
  | k + 1 => eventCount s k + (if (interval_tick (runTicks s k)).2 then 1 else 0)

/-! ### Question bank and navigation (app.py GameData, navigate_questions) -/

/-- GameData.questions (prompt punctuation simplified: apostrophes dropped). -/
def questions : List String :=
  ["1. Whats the biggest fear of an iPhone user?",
   "2. What is the most persistent decoration on NYC statues and buildings?",
   "3. Which type of milk is NOT real milk?",
   "4. What is the Iris dataset most commonly used for?",
   "5. Whats the best way to find your gate on AIRPORT?",
   "6. Which city is home to Hollywood??"]

/-- GameData.answer_points: question number to point value; questions 1-5
have values, any other question number maps to NaN under Series.map
(modelled as none). -/
def answer_points (q : Int) : Option Int :=
  if q = 1 then some 1000
  else if q = 2 then some 8000
  else if q = 3 then some 32000
  else if q = 4 then some 500000
  else if q = 5 then some 1000000
  else none

/-- app.py navigate_questions: move forward below the last index, backward
above 0, otherwise return the index unchanged (also for any other trigger,
matching the untriggered early return and the final fall-through). -/
def navigate_questions (button_id : String) (current_index : Int)
    (num_questions : Nat) : Int :=
  if button_id = "next-question-btn" then
    (if current_index < (num_questions : Int) - 1 then current_index + 1
     else current_index)
  else if button_id = "prev-question-btn" then
    (if current_index > 0 then current_index - 1 else current_index)
  else current_index

/-! ### Leaderboard aggregation (app.py update_leaderboard) -/

/-- The points cell of a row after
`answer_data["points"] = answer_data["Question"].map(points)`:
NaN (none) when the question has no point value. -/
def row_points (r : Record) : Option Int :=
  answer_points r.Question

/-- Add `v` to the entry of `name` in a running name-to-sum table, appending
a fresh entry when the name is new. -/
def insertSum (name : String) (v : Int) : List (String × Int) → List (String × Int)
  | [] => [(name, v)]
  | (n, s) :: rest =>
    if n = name then (n, s + v) :: rest else (n, s) :: insertSum name v rest

/-- `groupby("Name")["points"].sum()` over rows: per distinct Name, the sum
of the points cells.  Series.sum skips NaN (and an all-NaN group sums to 0),
so a none cell contributes 0. -/
def group_sum_points (rows : List Record) : List (String × Int) :=
  rows.foldl (fun acc r => insertSum r.Name ((row_points r).getD 0) acc) []

/-- Insertion into a list sorted descending by the score component (the
`sorted(..., key=lambda x: x[1], reverse=True)` of the source; ties keep
their relative order, as Python sort is stable). -/
def insertDesc (p : String × Int) : List (String × Int) → List (String × Int)
  | [] => [p]
  | q :: qs => if p.2 ≥ q.2 then p :: q :: qs else q :: insertDesc p qs

/-- Sort name-score pairs descending by score. -/
def sortDescBySnd : List (String × Int) → List (String × Int)
  | [] => []
  | p :: ps => insertDesc p (sortDescBySnd ps)

/-- The leader_board dict built by update_leaderboard from the (already
deduplicated) answer data: keep the Correct rows, sum points per Name, sort
descending by total. -/
def leaderboard_dict (rows : List Record) : List (String × Int) :=
  sortDescBySnd (group_sum_points (rows.filter (fun r => r.Correct)))

/-- The update_leaderboard callback on time-up: fetch and deduplicate the
answer data (an exception from filter_first_occurrence propagates and aborts
the refresh), then build the leaderboard. -/
def update_leaderboard (df : DataFrame) : Except FetchError (List (String × Int)) :=
  match filter_first_occurrence df with
  | .error e => .error e
  | .ok out => .ok (leaderboard_dict out.rows)

/-- The per-player total the spec asserts for the leaderboard: the sum of
the point values of the Correct rows of that player, rows whose question
has no point value contributing nothing. -/
def sum_correct_points (name : String) (rows : List Record) : Int :=
  ((rows.filter (fun r => r.Name == name && r.Correct)).map
    (fun r => (row_points r).getD 0)).sum

/-- The total attributed to `n` by a name-to-sum table (the sum of the
entries carrying `n`; the tables built by group_sum_points carry at most
one such entry). -/
def scoreOf (l : List (String × Int)) (n : String) : Int :=
  ((l.filter (fun p => p.1 == n)).map Prod.snd).sum

/-- The points contributed to player `n` by a list of rows. -/
def sum_points_of (n : String) (rows : List Record) : Int :=
  ((rows.filter (fun r => r.Name == n)).map
    (fun r => (row_points r).getD 0)).sum

/-! ### Per-question visualisation dispatch (question_visualisation.py) -/

/-- The kind of Plotly figure each question function builds (figure content
is presentation and out of scope; the dispatch shape is what matters). -/
inductive FigureKind where
  | line
  | scatterMap
  | heatmap
  | scatter3d
deriving DecidableEq, Repr

/-- Python errors surfaced by the visualisation dispatch. -/
inductive PyError where
  | indexError
deriving DecidableEq, Repr

/-- question_1: Apple stock line chart. -/
def question_1 : List (String × FigureKind) := [("Apple SP", .line)]

/-- question_2: NYC pigeon complaints map. -/
def question_2 : List (String × FigureKind) := [("Pigeon DooDoo", .scatterMap)]

/-- question_3: milk-production heatmap. -/
def question_3 : List (String × FigureKind) := [("Milk Production", .heatmap)]

/-- question_4: Iris 3D scatter. -/
def question_4 : List (String × FigureKind) := [("Iris", .scatter3d)]

/-- question_visualisation.py get_ques_vis: index the four-element dispatch
list with the question number; a number past the end raises IndexError (the
callback always passes the nonnegative store index). -/
def get_ques_vis (number : Nat) : Except PyError (List (String × FigureKind)) :=
  let index := [question_1, question_2, question_3, question_4]
  match index[number]? with
  | some figs => .ok figs
  | none => .error .indexError

/-! ### Poll loop (fetch.py get_answers_power_automate_hook) -/

/-- The while True loop of get_answers_power_automate_hook, run for `fuel`
iterations starting at iteration `i`: each iteration checks whether the
trigger file exists at that instant and returns (the iteration at which the
excel is read) as soon as it does not; the source loop has no other exit. -/
def poll_from (triggerExists : Nat → Bool) (i : Nat) : Nat → Option Nat
  | 0 => none
  | fuel + 1 =>
    if triggerExists i then poll_from triggerExists (i + 1) fuel else some i

/-- The poll loop from its start, bounded by `fuel` iterations. -/
def poll (triggerExists : Nat → Bool) (fuel : Nat) : Option Nat :=
  poll_from triggerExists 0 fuel

/-- The unbounded source loop terminates iff some finite number of
iterations suffices for it to return. -/
def PollTerminates (triggerExists : Nat → Bool) : Prop :=
  ∃ fuel i, poll triggerExists fuel = some i

/-! ### Concrete sample data (the worked example of the spec) -/

/-- Spec example: P1 answers question 1 twice (first submission correct with
option A, duplicate wrong), P2 answers once, correct. -/
def sample_rows : List Record :=
  [{ ID := 1, Name := "P1", Question := 1, Answer := 1, Correct := true },
   { ID := 1, Name := "P1", Question := 1, Answer := 2, Correct := false },
   { ID := 2, Name := "P2", Question := 1, Answer := 1, Correct := true }]

/-- The sample answer log with all required columns present. -/
def sample_df : DataFrame :=
  { columns := required_columns, rows := sample_rows }

/-- The deduplicated sample log. -/
def sample_dedup : DataFrame :=
  { columns := required_columns, rows := sortByKey (firstOccurrences sample_rows) }

/-! ## Deduplication and malformed input -/

theorem filter_first_occurrence_ok (df : DataFrame)
    (h : required_columns.filter (fun c => ! df.columns.contains c) = []) :
    filter_first_occurrence df =
      .ok { columns := df.columns, rows := sortByKey (firstOccurrences df.rows) } := by
  unfold filter_first_occurrence
  rw [if_pos h]

theorem filter_first_occurrence_error (df : DataFrame)
    (h : required_columns.filter (fun c => ! df.columns.contains c) ≠ []) :
    filter_first_occurrence df =
      .error (.malformedRecord
        (required_columns.filter (fun c => ! df.columns.contains c))) := by
  unfold filter_first_occurrence
  rw [if_neg h]

theorem filter_first_occurrence_ok_inv {df out : DataFrame}
    (h : filter_first_occurrence df = .ok out) :
    required_columns.filter (fun c => ! df.columns.contains c) = []
      ∧ out = { columns := df.columns, rows := sortByKey (firstOccurrences df.rows) } := by
  by_cases hc : required_columns.filter (fun c => ! df.columns.contains c) = []
  · rw [filter_first_occurrence_ok df hc] at h
    exact ⟨hc, (Except.ok.inj h).symm⟩
  · rw [filter_first_occurrence_error df hc] at h
    exact Except.noConfusion h

theorem count_firstOccurrencesAux (l : List Record) :
    ∀ (seen : List (Int × String × Int)) (r : Record),
      (firstOccurrencesAux seen l).count r =
        if recKey r ∈ seen then 0
        else if l.find? (fun x => recKey x == recKey r) = some r then 1 else 0 := by
  induction l with
  | nil =>
    intro seen r
    simp [firstOccurrencesAux]
  | cons h t ih =>
    intro seen r
    by_cases hs : recKey h ∈ seen
    · rw [firstOccurrencesAux, if_pos hs, ih]
      by_cases hr : recKey r ∈ seen
      · rw [if_pos hr, if_pos hr]
      · have hne : recKey h ≠ recKey r := fun he => hr (he ▸ hs)
        have hfind : List.find? (fun x => recKey x == recKey r) (h :: t) =
            List.find? (fun x => recKey x == recKey r) t :=
          List.find?_cons_of_neg _ (by simpa using hne)
        rw [if_neg hr, if_neg hr, hfind]
    · rw [firstOccurrencesAux, if_neg hs, List.count_cons, ih]
      by_cases hr : recKey r ∈ seen
      · have hhr : (h == r) = false := by
          rw [beq_eq_false_iff_ne]
          rintro rfl
          exact hs hr
        rw [if_pos (List.mem_cons_of_mem _ hr), if_pos hr, hhr]
        simp
      · by_cases hk : recKey h = recKey r
        · have hmem : recKey r ∈ recKey h :: seen := by
            rw [← hk]
            exact List.mem_cons_self _ _
          have hfind : List.find? (fun x => recKey x == recKey r) (h :: t) = some h :=
            List.find?_cons_of_pos _ (by simpa using hk)
          rw [if_pos hmem, if_neg hr, hfind]
          by_cases hrh : h = r
          · subst hrh
            simp
          · have h1 : (h == r) = false := beq_eq_false_iff_ne.mpr hrh
            have h2 : ¬ (some h = some r) := fun he => hrh (Option.some.inj he)
            rw [h1, if_neg h2]
            simp
        · have hfind : List.find? (fun x => recKey x == recKey r) (h :: t) =
              List.find? (fun x => recKey x == recKey r) t :=
            List.find?_cons_of_neg _ (by simpa using hk)
          have hmem : recKey r ∉ recKey h :: seen := by
            intro hm
            rcases List.mem_cons.mp hm with h1 | h2
            · exact hk h1.symm
            · exact hr h2
          have hrh : (h == r) = false := by
            rw [beq_eq_false_iff_ne]
            rintro rfl
            exact hk rfl
          rw [if_neg hmem, if_neg hr, hfind, hrh]
          simp

theorem count_firstOccurrences (l : List Record) (r : Record) :
    (firstOccurrences l).count r =
      if l.find? (fun x => recKey x == recKey r) = some r then 1 else 0 := by
  rw [firstOccurrences, count_firstOccurrencesAux]
  rw [if_neg (List.not_mem_nil _)]

theorem insertByKey_perm (r : Record) (l : List Record) :
    List.Perm (insertByKey r l) (r :: l) := by
  induction l with
  | nil => exact List.Perm.refl _
  | cons x xs ih =>
    rw [insertByKey]
    by_cases h : keyLe r x = true
    · rw [if_pos h]
    · rw [if_neg h]
      exact (ih.cons x).trans (List.Perm.swap r x xs)

theorem sortByKey_perm (l : List Record) : List.Perm (sortByKey l) l := by
  induction l with
  | nil => exact List.Perm.refl _
  | cons r rs ih =>
    rw [sortByKey]
    exact (insertByKey_perm r (sortByKey rs)).trans (ih.cons r)

/-- C2: deduplication keeps, for every record value, exactly one copy
exactly when that record is the first submitted row carrying its
(ID, Name, Question) key; every later duplicate for the same key is
discarded, so a duplicate submission never contributes a second row to the
aggregation input. -/
theorem dedup_keeps_first_submission (df out : DataFrame) (r : Record)
    (h : filter_first_occurrence df = .ok out) :
    out.rows.count r =
      if firstWithKey df.rows (recKey r) = some r then 1 else 0 := by
  obtain ⟨-, rfl⟩ := filter_first_occurrence_ok_inv h
  rw [firstWithKey]
  rw [(sortByKey_perm (firstOccurrences df.rows)).count_eq]
  exact count_firstOccurrences _ _

/-- Witness for C2: in the sample log the first submission of P1 for
question 1 survives exactly once (and, the condition being decidable at the
concrete input, the duplicate is what the count is measured against). -/
theorem dedup_keeps_first_submission_witness :
    sample_dedup.rows.count
        { ID := 1, Name := "P1", Question := 1, Answer := 1, Correct := true } =
      if firstWithKey sample_df.rows
          (recKey { ID := 1, Name := "P1", Question := 1, Answer := 1, Correct := true }) =
          some { ID := 1, Name := "P1", Question := 1, Answer := 1, Correct := true }
        then 1 else 0 :=
  dedup_keeps_first_submission sample_df sample_dedup _ rfl

/-- C3: filter_first_occurrence fails, with the error listing the missing
columns (the MalformedRecordError of the spec taxonomy), exactly when some
required column among ID, Name, Question, Answer, Correct is absent from
the log; on that failure the leaderboard refresh aborts with the same error
and produces no partial result. -/
theorem aggregation_fails_iff_missing_column (df : DataFrame) :
    ((∃ missing, filter_first_occurrence df = .error (.malformedRecord missing))
        ↔ ∃ c ∈ required_columns, df.columns.contains c = false)
      ∧ (∀ e, filter_first_occurrence df = .error e →
          update_leaderboard df = .error e) := by
  constructor
  · constructor
    · rintro ⟨m, hm⟩
      by_cases h : required_columns.filter (fun c => ! df.columns.contains c) = []
      · rw [filter_first_occurrence_ok df h] at hm
        exact Except.noConfusion hm
      · obtain ⟨c, hc⟩ := List.exists_mem_of_ne_nil _ h
        have hmem := List.mem_filter.mp hc
        exact ⟨c, hmem.1, by simpa using hmem.2⟩
    · rintro ⟨c, hc, hcc⟩
      have hmem : c ∈ required_columns.filter (fun c2 => ! df.columns.contains c2) :=
        List.mem_filter.mpr ⟨hc, by rw [hcc]; rfl⟩
      have h : required_columns.filter (fun c2 => ! df.columns.contains c2) ≠ [] := by
        intro he
        rw [he] at hmem
        exact List.not_mem_nil _ hmem
      exact ⟨_, filter_first_occurrence_error df h⟩
  · intro e he
    rw [update_leaderboard, he]

/-- Witness for C3: a log with only ID and Name columns is rejected, and the
leaderboard refresh aborts with the same error naming the absent columns. -/
theorem aggregation_fails_iff_missing_column_witness :
    (∃ missing,
        filter_first_occurrence { columns := ["ID", "Name"], rows := [] } =
          .error (.malformedRecord missing))
      ∧ update_leaderboard { columns := ["ID", "Name"], rows := [] } =
          .error (.malformedRecord ["Question", "Answer", "Correct"]) :=
  ⟨(aggregation_fails_iff_missing_column _).1.mpr ⟨"Question", by decide, by decide⟩,
   (aggregation_fails_iff_missing_column _).2 _ (by rfl)⟩

/-! ## Idempotence of deduplication -/

theorem firstOccurrencesAux_not_seen (l : List Record) :
    ∀ seen, ∀ x ∈ firstOccurrencesAux seen l, recKey x ∉ seen := by
  induction l with
  | nil =>
    intro seen x hx
    simp [firstOccurrencesAux] at hx
  | cons h t ih =>
    intro seen x hx
    rw [firstOccurrencesAux] at hx
    by_cases hs : recKey h ∈ seen
    · rw [if_pos hs] at hx
      exact ih seen x hx
    · rw [if_neg hs] at hx
      rcases List.mem_cons.mp hx with rfl | hx2
      · exact hs
      · intro hmem
        exact ih _ x hx2 (List.mem_cons_of_mem _ hmem)

theorem firstOccurrencesAux_keys_pairwise (l : List Record) :
    ∀ seen, (firstOccurrencesAux seen l).Pairwise
      (fun a b => recKey a ≠ recKey b) := by
  induction l with
  | nil =>
    intro seen
    simp [firstOccurrencesAux]
  | cons h t ih =>
    intro seen
    rw [firstOccurrencesAux]
    by_cases hs : recKey h ∈ seen
    · rw [if_pos hs]
      exact ih seen
    · rw [if_neg hs]
      refine List.Pairwise.cons ?_ (ih _)
      intro x hx he
      exact firstOccurrencesAux_not_seen t _ x hx
        (by rw [← he]; exact List.mem_cons_self _ _)

theorem firstOccurrencesAux_id (l : List Record) :
    ∀ seen, l.Pairwise (fun a b => recKey a ≠ recKey b) →
      (∀ x ∈ l, recKey x ∉ seen) → firstOccurrencesAux seen l = l := by
  induction l with
  | nil =>
    intro seen _ _
    rfl
  | cons h t ih =>
    intro seen hp hn
    rw [firstOccurrencesAux, if_neg (hn h (List.mem_cons_self _ _))]
    congr 1
    refine ih _ (List.Pairwise.of_cons hp) ?_
    intro x hx hmem
    rcases List.mem_cons.mp hmem with h1 | h2
    · exact List.rel_of_pairwise_cons hp hx h1.symm
    · exact hn x (List.mem_cons_of_mem _ hx) h2

theorem keyLe_total (a b : Record) : keyLe a b = true ∨ keyLe b a = true := by
  unfold keyLe
  by_cases h1 : a.ID = b.ID
  · rw [if_pos h1, if_pos h1.symm]
    by_cases h2 : a.Name = b.Name
    · rw [if_pos h2, if_pos h2.symm]
      rcases Int.le_total a.Question b.Question with h | h
      · exact Or.inl (decide_eq_true h)
      · exact Or.inr (decide_eq_true h)
    · rw [if_neg h2, if_neg (fun he => h2 he.symm)]
      rcases Ne.lt_or_lt h2 with h | h
      · exact Or.inl (decide_eq_true h)
      · exact Or.inr (decide_eq_true h)
  · rw [if_neg h1, if_neg (fun he => h1 he.symm)]
    rcases Ne.lt_or_lt h1 with h | h
    · exact Or.inl (decide_eq_true h)
    · exact Or.inr (decide_eq_true h)

theorem insertByKey_head_cases (r : Record) (l : List Record) :
    (insertByKey r l).head? = some r ∨ (insertByKey r l).head? = l.head? := by
  cases l with
  | nil => exact Or.inl rfl
  | cons x xs =>
    rw [insertByKey]
    by_cases h : keyLe r x = true
    · rw [if_pos h]
      exact Or.inl rfl
    · rw [if_neg h]
      exact Or.inr rfl

theorem chain_insertByKey (r : Record) :
    ∀ l : List Record, List.Chain' (fun a b => keyLe a b = true) l →
      List.Chain' (fun a b => keyLe a b = true) (insertByKey r l) := by
  intro l
  induction l with
  | nil =>
    intro _
    simp [insertByKey]
  | cons x xs ih =>
    intro hl
    rw [insertByKey]
    by_cases h : keyLe r x = true
    · rw [if_pos h]
      exact List.chain'_cons.mpr ⟨h, hl⟩
    · rw [if_neg h]
      have hxr : keyLe x r = true := (keyLe_total r x).resolve_left h
      have hl2 := List.chain'_cons'.mp hl
      rw [List.chain'_cons']
      refine ⟨?_, ih hl2.2⟩
      intro y hy
      rcases insertByKey_head_cases r xs with hc | hc
      · rw [hc] at hy
        obtain rfl : r = y := by simpa using hy
        exact hxr
      · rw [hc] at hy
        exact hl2.1 y hy

theorem sortByKey_chain (l : List Record) :
    List.Chain' (fun a b => keyLe a b = true) (sortByKey l) := by
  induction l with
  | nil => simp [sortByKey]
  | cons r rs ih =>
    rw [sortByKey]
    exact chain_insertByKey r _ ih

theorem sortByKey_of_chain {l : List Record}
    (hl : List.Chain' (fun a b => keyLe a b = true) l) : sortByKey l = l := by
  induction l with
  | nil => rfl
  | cons r rs ih =>
    rw [sortByKey, ih (List.chain'_cons'.mp hl).2]
    cases rs with
    | nil => rfl
    | cons y ys =>
      rw [insertByKey, if_pos (List.chain'_cons.mp hl).1]

/-- C8: deduplication is idempotent: applied to its own successful output,
filter_first_occurrence returns that output unchanged. -/
theorem filter_first_occurrence_idempotent (df out : DataFrame)
    (h : filter_first_occurrence df = .ok out) :
    filter_first_occurrence out = .ok out := by
  obtain ⟨hcols, rfl⟩ := filter_first_occurrence_ok_inv h
  rw [filter_first_occurrence_ok _ (by simpa using hcols)]
  have hpair : (sortByKey (firstOccurrences df.rows)).Pairwise
      (fun a b => recKey a ≠ recKey b) :=
    ((sortByKey_perm (firstOccurrences df.rows)).pairwise_iff
      (fun hxy => Ne.symm hxy)).mpr (firstOccurrencesAux_keys_pairwise _ [])
  have hfo : firstOccurrences (sortByKey (firstOccurrences df.rows)) =
      sortByKey (firstOccurrences df.rows) :=
    firstOccurrencesAux_id _ [] hpair (fun x _ => List.not_mem_nil _)
  have hsort : sortByKey (sortByKey (firstOccurrences df.rows)) =
      sortByKey (firstOccurrences df.rows) :=
    sortByKey_of_chain (sortByKey_chain _)
  simp only [hfo, hsort]

/-- Witness for C8 on the sample log. -/
theorem filter_first_occurrence_idempotent_witness :
    filter_first_occurrence sample_dedup = .ok sample_dedup :=
  filter_first_occurrence_idempotent sample_df sample_dedup rfl

/-! ## Leaderboard aggregation -/

theorem scoreOf_nil (n : String) : scoreOf [] n = 0 := rfl

theorem scoreOf_cons (p : String × Int) (l : List (String × Int)) (n : String) :
    scoreOf (p :: l) n = (if p.1 == n then p.2 else 0) + scoreOf l n := by
  rw [scoreOf, scoreOf, List.filter_cons]
  by_cases h : (p.1 == n) = true
  · rw [if_pos h, if_pos h, List.map_cons, List.sum_cons]
  · rw [if_neg h, if_neg h]
    omega

theorem sum_points_of_nil (n : String) : sum_points_of n [] = 0 := rfl

theorem sum_points_of_cons (n : String) (r : Record) (rs : List Record) :
    sum_points_of n (r :: rs) =
      (if r.Name == n then (row_points r).getD 0 else 0) + sum_points_of n rs := by
  rw [sum_points_of, sum_points_of, List.filter_cons]
  by_cases h : (r.Name == n) = true
  · rw [if_pos h, if_pos h, List.map_cons, List.sum_cons]
  · rw [if_neg h, if_neg h]
    omega

theorem scoreOf_insertSum (m : String) (v : Int) :
    ∀ (l : List (String × Int)) (n : String),
      scoreOf (insertSum m v l) n = scoreOf l n + (if m == n then v else 0) := by
  intro l
  induction l with
  | nil =>
    intro n
    simp only [insertSum, scoreOf_cons, scoreOf_nil]
    split <;> omega
  | cons q qs ih =>
    obtain ⟨a, b⟩ := q
    intro n
    rw [insertSum]
    by_cases h : a = m
    · subst h
      rw [if_pos rfl]
      simp only [scoreOf_cons]
      split <;> omega
    · rw [if_neg h]
      simp only [scoreOf_cons]
      rw [ih]
      split <;> split <;> omega

theorem scoreOf_foldl_insertSum (rows : List Record) :
    ∀ (acc : List (String × Int)) (n : String),
      scoreOf
          (rows.foldl (fun acc r => insertSum r.Name ((row_points r).getD 0) acc) acc)
          n =
        scoreOf acc n + sum_points_of n rows := by
  induction rows with
  | nil =>
    intro acc n
    rw [List.foldl_nil, sum_points_of_nil]
    omega
  | cons r rs ih =>
    intro acc n
    rw [List.foldl_cons, ih, scoreOf_insertSum, sum_points_of_cons]
    split <;> omega

theorem scoreOf_group_sum_points (rows : List Record) (n : String) :
    scoreOf (group_sum_points rows) n = sum_points_of n rows := by
  unfold group_sum_points
  rw [scoreOf_foldl_insertSum, scoreOf_nil]
  omega

theorem insertSum_keys_sub (m : String) (v : Int) :
    ∀ (l : List (String × Int)) (q : String × Int),
      q ∈ insertSum m v l → q.1 = m ∨ ∃ p ∈ l, q.1 = p.1 := by
  intro l
  induction l with
  | nil =>
    intro q hq
    obtain rfl : q = (m, v) := List.mem_singleton.mp hq
    exact Or.inl rfl
  | cons p ps ih =>
    obtain ⟨a, b⟩ := p
    intro q hq
    rw [insertSum] at hq
    by_cases h : a = m
    · rw [if_pos h] at hq
      rcases List.mem_cons.mp hq with rfl | hq2
      · exact Or.inr ⟨(a, b), List.mem_cons_self _ _, rfl⟩
      · exact Or.inr ⟨q, List.mem_cons_of_mem _ hq2, rfl⟩
    · rw [if_neg h] at hq
      rcases List.mem_cons.mp hq with rfl | hq2
      · exact Or.inr ⟨(a, b), List.mem_cons_self _ _, rfl⟩
      · rcases ih q hq2 with h1 | ⟨p2, hp2, he⟩
        · exact Or.inl h1
        · exact Or.inr ⟨p2, List.mem_cons_of_mem _ hp2, he⟩

theorem insertSum_keys_pairwise (m : String) (v : Int) :
    ∀ l : List (String × Int), l.Pairwise (fun p q => p.1 ≠ q.1) →
      (insertSum m v l).Pairwise (fun p q => p.1 ≠ q.1) := by
  intro l
  induction l with
  | nil =>
    intro _
    simp [insertSum]
  | cons p ps ih =>
    obtain ⟨a, b⟩ := p
    intro hp
    rw [insertSum]
    by_cases h : a = m
    · rw [if_pos h]
      refine List.Pairwise.cons ?_ (List.Pairwise.of_cons hp)
      intro q hq
      exact List.rel_of_pairwise_cons hp hq
    · rw [if_neg h]
      refine List.Pairwise.cons ?_ (ih (List.Pairwise.of_cons hp))
      intro q hq
      rcases insertSum_keys_sub m v ps q hq with h1 | ⟨p2, hp2, he⟩
      · rw [h1]
        exact h
      · rw [he]
        exact List.rel_of_pairwise_cons hp hp2

theorem foldl_insertSum_keys_pairwise (rows : List Record) :
    ∀ acc : List (String × Int), acc.Pairwise (fun p q => p.1 ≠ q.1) →
      (rows.foldl (fun acc r => insertSum r.Name ((row_points r).getD 0) acc)
          acc).Pairwise (fun p q => p.1 ≠ q.1) := by
  induction rows with
  | nil =>
    intro acc h
    exact h
  | cons r rs ih =>
    intro acc h
    rw [List.foldl_cons]
    exact ih _ (insertSum_keys_pairwise _ _ _ h)

theorem group_sum_points_keys_pairwise (rows : List Record) :
    (group_sum_points rows).Pairwise (fun p q => p.1 ≠ q.1) := by
  unfold group_sum_points
  exact foldl_insertSum_keys_pairwise rows [] List.Pairwise.nil

theorem scoreOf_eq_zero {l : List (String × Int)} {n : String}
    (h : ∀ p ∈ l, p.1 ≠ n) : scoreOf l n = 0 := by
  induction l with
  | nil => rfl
  | cons p ps ih =>
    rw [scoreOf_cons]
    have hne : (p.1 == n) = false :=
      beq_eq_false_iff_ne.mpr (h p (List.mem_cons_self _ _))
    rw [hne, ih (fun q hq => h q (List.mem_cons_of_mem _ hq))]
    simp

theorem scoreOf_of_mem {l : List (String × Int)} {n : String} {v : Int}
    (hp : l.Pairwise (fun p q => p.1 ≠ q.1)) (hm : (n, v) ∈ l) :
    scoreOf l n = v := by
  induction l with
  | nil => cases hm
  | cons p ps ih =>
    rcases List.mem_cons.mp hm with rfl | hm2
    · rw [scoreOf_cons]
      have h0 : scoreOf ps n = 0 :=
        scoreOf_eq_zero (fun q hq => Ne.symm (List.rel_of_pairwise_cons hp hq))
      rw [h0]
      simp
    · rw [scoreOf_cons]
      have hne : (p.1 == n) = false :=
        beq_eq_false_iff_ne.mpr (List.rel_of_pairwise_cons hp hm2)
      rw [hne, ih (List.Pairwise.of_cons hp) hm2]
      simp

theorem insertDesc_perm (p : String × Int) (l : List (String × Int)) :
    List.Perm (insertDesc p l) (p :: l) := by
  induction l with
  | nil => exact List.Perm.refl _
  | cons q qs ih =>
    rw [insertDesc]
    by_cases h : p.2 ≥ q.2
    · rw [if_pos h]
    · rw [if_neg h]
      exact (ih.cons q).trans (List.Perm.swap p q qs)

theorem sortDescBySnd_perm (l : List (String × Int)) :
    List.Perm (sortDescBySnd l) l := by
  induction l with
  | nil => exact List.Perm.refl _
  | cons p ps ih =>
    rw [sortDescBySnd]
    exact (insertDesc_perm p (sortDescBySnd ps)).trans (ih.cons p)

/-- C1: every entry (name, total) of the leaderboard computed by
update_leaderboard satisfies total = sum of the point values of the
deduplicated rows of that player whose Correct cell is true, rows of
questions without a point value contributing nothing (pandas Series.sum
skips the NaN produced by the map). -/
theorem update_leaderboard_total_points (df out : DataFrame)
    (lb : List (String × Int)) (name : String) (total : Int)
    (hdedup : filter_first_occurrence df = .ok out)
    (hlb : update_leaderboard df = .ok lb)
    (hmem : (name, total) ∈ lb) :
    total = sum_correct_points name out.rows := by
  rw [update_leaderboard, hdedup] at hlb
  obtain rfl : leaderboard_dict out.rows = lb := Except.ok.inj hlb
  have hperm : List.Perm (leaderboard_dict out.rows)
      (group_sum_points (out.rows.filter (fun r => r.Correct))) := by
    rw [leaderboard_dict]
    exact sortDescBySnd_perm _
  have hpair : (leaderboard_dict out.rows).Pairwise (fun p q => p.1 ≠ q.1) :=
    (hperm.pairwise_iff (fun hxy => Ne.symm hxy)).mpr
      (group_sum_points_keys_pairwise _)
  have htot : scoreOf (leaderboard_dict out.rows) name = total :=
    scoreOf_of_mem hpair hmem
  have hps : scoreOf (leaderboard_dict out.rows) name =
      scoreOf (group_sum_points (out.rows.filter (fun r => r.Correct))) name := by
    rw [scoreOf, scoreOf]
    exact ((hperm.filter _).map _).sum_eq
  have hgroup := scoreOf_group_sum_points
    (out.rows.filter (fun r => r.Correct)) name
  have hfuse : sum_points_of name (out.rows.filter (fun r => r.Correct)) =
      sum_correct_points name out.rows := by
    rw [sum_points_of, sum_correct_points, List.filter_filter]
  omega

/-- Witness for C1 on the worked example of the spec: with question 1 worth
1000, the leaderboard entry of P1 carries exactly the points of the single
correct deduplicated row of P1. -/
theorem update_leaderboard_total_points_witness :
    (1000 : Int) = sum_correct_points "P1" sample_dedup.rows :=
  update_leaderboard_total_points sample_df sample_dedup
    [("P1", 1000), ("P2", 1000)] "P1" 1000 rfl rfl (by decide)

/-! ## Timer lemmas -/

theorem update_timer_interval_n_intervals (n : Nat) :
    (update_timer .interval n).n_intervals = n := by
  simp only [update_timer]
  split <;> rfl

theorem update_timer_interval_time_up (n : Nat) :
    (update_timer .interval n).time_up = decide (n % 30 = 0 ∧ n ≠ 0) := by
  simp only [update_timer]
  have hlt : n % 30 < 30 := Nat.mod_lt _ (by omega)
  split_ifs with h
  · symm
    rw [decide_eq_true_iff]
    omega
  · symm
    rw [decide_eq_false_iff_not]
    omega

theorem interval_tick_state (s : TimerState) :
    (interval_tick s).1 =
      if s.n_intervals < 30 then
        { n_intervals := s.n_intervals + 1,
          time_up := decide (s.n_intervals = 29) }
      else s := by
  rw [interval_tick]
  simp only [MAX_INTERVALS]
  split_ifs with h
  · rw [TimerState.mk.injEq, update_timer_interval_n_intervals,
      update_timer_interval_time_up]
    exact ⟨rfl, decide_eq_decide.mpr (by omega)⟩
  · rfl

theorem interval_tick_event (s : TimerState) :
    (interval_tick s).2 = decide (s.n_intervals = 29) := by
  rw [interval_tick]
  simp only [MAX_INTERVALS]
  split_ifs with h
  · rw [update_timer_interval_time_up]
    exact decide_eq_decide.mpr (by omega)
  · symm
    rw [decide_eq_false_iff_not]
    omega

theorem runTicks_reset (k : Nat) :
    runTicks timer_reset_state k =
      { n_intervals := min k 30, time_up := decide (30 ≤ k) } := by
  induction k with
  | zero => rfl
  | succ k ih =>
    rw [runTicks, ih, interval_tick_state]
    by_cases h : k < 30
    · rw [if_pos (by simpa using h)]
      simp only [TimerState.mk.injEq]
      exact ⟨by omega, decide_eq_decide.mpr (by omega)⟩
    · rw [if_neg (by simpa using h)]
      simp only [TimerState.mk.injEq]
      exact ⟨by omega, decide_eq_decide.mpr (by omega)⟩

theorem eventCount_reset (k : Nat) :
    eventCount timer_reset_state k = if 30 ≤ k then 1 else 0 := by
  induction k with
  | zero => rfl
  | succ k ih =>
    rw [eventCount, ih, runTicks_reset, interval_tick_event]
    simp only [decide_eq_true_iff]
    split_ifs <;> omega

/-- C4: in a run of ticks without a question change, starting from the
reset state, the one-shot time-up event is emitted exactly once, at the tick
where the elapsed count reaches 30: the event total over the first k ticks
is 0 before tick 30 and exactly 1 from tick 30 on (so a 31st tick does not
re-fire it), and the machine is Expired from tick 30 on, not before. -/
theorem timer_time_up_exactly_once (k : Nat) :
    eventCount timer_reset_state k = (if 30 ≤ k then 1 else 0)
      ∧ (30 ≤ k → (runTicks timer_reset_state k).time_up = true)
      ∧ (k < 30 → (runTicks timer_reset_state k).time_up = false) := by
  refine ⟨eventCount_reset k, ?_, ?_⟩ <;>
    intro h <;> rw [runTicks_reset] <;> simp <;> omega

/-- Witness for C4 at the 31st tick: the event has fired exactly once and
the machine is still Expired. -/
theorem timer_time_up_exactly_once_witness :
    eventCount timer_reset_state 31 = (if 30 ≤ 31 then 1 else 0)
      ∧ (runTicks timer_reset_state 31).time_up = true :=
  ⟨(timer_time_up_exactly_once 31).1,
   (timer_time_up_exactly_once 31).2.1 (by omega)⟩

/-- C7: a change of the active question runs the questionChange branch of
update_timer, which writes 0 elapsed intervals and time_up = false whatever
the prior timer state was (Running or Expired). -/
theorem question_change_always_resets (s : TimerState) :
    question_change_step s = timer_reset_state
      ∧ (update_timer .questionChange s.n_intervals).time_up = false
      ∧ (update_timer .questionChange s.n_intervals).n_intervals = 0 := by
  cases s
  exact ⟨rfl, rfl, rfl⟩

/-! ## Navigation -/

/-- C5: from any index in [0, question_count - 1] of a bank with at least
one question, a navigation step stays inside [0, question_count - 1]; a
next click at the last index and a previous click at index 0 both leave the
index unchanged. -/
theorem navigate_questions_stays_in_range (button_id : String) (n : Nat)
    (i : Int) (hn : 1 ≤ n) (h0 : 0 ≤ i) (h1 : i ≤ (n : Int) - 1) :
    (0 ≤ navigate_questions button_id i n
        ∧ navigate_questions button_id i n ≤ (n : Int) - 1)
      ∧ navigate_questions "next-question-btn" ((n : Int) - 1) n = (n : Int) - 1
      ∧ navigate_questions "prev-question-btn" 0 n = 0 := by
  unfold navigate_questions
  refine ⟨?_, ?_, ?_⟩
  · split_ifs <;> omega
  · rw [if_pos rfl, if_neg (by omega)]
  · rw [if_neg (by decide), if_pos rfl, if_neg (by omega)]

/-- Witness for C5 on the shipped bank of 6 questions at index 0. -/
theorem navigate_questions_stays_in_range_witness :
    ((0 ≤ navigate_questions "next-question-btn" 0 6
        ∧ navigate_questions "next-question-btn" 0 6 ≤ (6 : Int) - 1)
      ∧ navigate_questions "next-question-btn" ((6 : Int) - 1) 6 = (6 : Int) - 1
      ∧ navigate_questions "prev-question-btn" 0 6 = 0) :=
  navigate_questions_stays_in_range "next-question-btn" 6 0 (by decide)
    (by decide) (by decide)

/-! ## Visualisation dispatch -/

/-- C10: the dispatch list of get_ques_vis has exactly four entries, so it
returns a figure for indices 0 to 3 and raises IndexError for every index
from 4 up, although the question bank has six questions (so the reachable
store indices 4 and 5 hit the error). -/
theorem get_ques_vis_only_first_four (n : Nat) (h : 4 ≤ n) :
    get_ques_vis n = .error .indexError
      ∧ questions.length = 6
      ∧ ∀ m : Nat, m < 4 → (get_ques_vis m).isOk = true := by
  refine ⟨?_, rfl, ?_⟩
  · obtain ⟨m, rfl⟩ : ∃ m, n = m + 4 := ⟨n - 4, by omega⟩
    rfl
  · intro m hm
    interval_cases m <;> rfl

/-- Witness for C10 at index 4 (the fifth question of the bank). -/
theorem get_ques_vis_only_first_four_witness :
    get_ques_vis 4 = .error .indexError ∧ questions.length = 6
      ∧ (get_ques_vis 3).isOk = true :=
  ⟨(get_ques_vis_only_first_four 4 (by omega)).1,
   (get_ques_vis_only_first_four 4 (by omega)).2.1,
   (get_ques_vis_only_first_four 4 (by omega)).2.2 3 (by omega)⟩

/-! ## Poll loop -/

theorem poll_from_const_true (i fuel : Nat) :
    poll_from (fun _ => true) i fuel = none := by
  induction fuel generalizing i with
  | zero => rfl
  | succ fuel ih => simpa [poll_from] using ih (i + 1)

/-- Counterexample to C9 as stated: with the trigger file permanently
present (the source never becomes available), the poll loop of
get_answers_power_automate_hook never returns — there is no caller-supplied
cancellation or timeout bounding the retry. -/
theorem poll_loop_no_escape_counterexample : ¬ PollTerminates (fun _ => true) := by
  rintro ⟨fuel, i, h⟩
  rw [poll, poll_from_const_true] at h
  exact Option.noConfusion h

theorem poll_from_some {t : Nat → Bool} {r : Nat} :
    ∀ fuel j, poll_from t j fuel = some r → t r = false := by
  intro fuel
  induction fuel with
  | zero => intro j h; exact Option.noConfusion h
  | succ fuel ih =>
    intro j h
    rw [poll_from] at h
    by_cases ht : t j
    · rw [if_pos ht] at h
      exact ih (j + 1) h
    · rw [if_neg ht] at h
      obtain rfl : j = r := Option.some.inj h
      exact Bool.not_eq_true _ ▸ ht

theorem poll_from_reaches {t : Nat → Bool} :
    ∀ fuel j, (∃ k, k < fuel ∧ t (j + k) = false) →
      ∃ r, poll_from t j fuel = some r := by
  intro fuel
  induction fuel with
  | zero => rintro j ⟨k, hk, -⟩; omega
  | succ fuel ih =>
    rintro j ⟨k, hk, hf⟩
    rw [poll_from]
    by_cases ht : t j
    · rw [if_pos ht]
      apply ih (j + 1)
      cases k with
      | zero =>
        rw [Nat.add_zero] at hf
        rw [hf] at ht
        exact absurd ht (by simp)
      | succ k =>
        refine ⟨k, by omega, ?_⟩
        have hj : j + 1 + k = j + (k + 1) := by omega
        rw [hj]
        exact hf
    · rw [if_neg ht]
      exact ⟨j, rfl⟩

/-- Amended C9: the poll loop of get_answers_power_automate_hook terminates
exactly when some iteration observes the trigger file absent; nothing else
bounds it — there is no caller-supplied cancellation or timeout, and with
the trigger permanently present it spins forever (see the counterexample). -/
theorem poll_terminates_iff (t : Nat → Bool) :
    PollTerminates t ↔ ∃ i, t i = false := by
  constructor
  · rintro ⟨fuel, i, h⟩
    exact ⟨i, poll_from_some fuel 0 h⟩
  · rintro ⟨i, hi⟩
    obtain ⟨r, hr⟩ := poll_from_reaches (i + 1) 0 ⟨i, by omega, by simpa using hi⟩
    exact ⟨i + 1, r, hr⟩

end WWTBM
